import Mathlib

/-!
Verification of the audit-logged CRUD-over-tabular-store core of the
Polaris backend (`src/app.py`).

The SQLite store is embedded shallowly: a row is an association list from
column names to SQL values, the data table carries its column schema and
whether the unique index on `id` was successfully created, and the
operations log is an append-only list.  The wall-clock timestamps read by
`log_operation` are passed in as explicit parameters.  Fallible paths of
the Python code (querying a missing table, inserting or updating unknown
columns, a string `MAX(id)` reaching `r[0] + 1`, a UNIQUE-index
violation, `pandas` refusing to insert a duplicate `id` column) are
modelled by `Option`, with `none` standing for a raised exception.
-/

namespace Polaris

/-- A SQL value as stored by the app: INTEGER, TEXT or NULL. -/
inductive Value where
  | int : Int → Value
  | str : String → Value
  | null : Value
deriving DecidableEq, Repr

/-- A Python dict with string keys / a table row: an association list.
A column of the schema missing from the list reads as SQL NULL. -/
abbrev Dict := List (String × Value)

abbrev Row := Dict

/-- First binding of key `k` in a dict, `none` when absent. -/
def lookupField (d : Dict) (k : String) : Option Value :=
  match d.find? (fun p => p.1 == k) with
  | some p => some p.2
  | none => none

/-- Value of column `c` in a row; a missing column is SQL NULL. -/
def Row.getCol (r : Row) (c : String) : Value :=
  (lookupField r c).getD Value.null

/-- Python `d[k] = v`: replace the value in place if the key exists,
otherwise append the new binding at the end (dict insertion order). -/
def dictSet (d : Dict) (k : String) (v : Value) : Dict :=
  if d.any (fun p => p.1 == k) then
    d.map (fun p => if p.1 == k then (k, v) else p)
  else
    d ++ [(k, v)]

/-- SQLite's ordering across storage classes: NULL < INTEGER < TEXT;
INTEGERs by value, TEXT by codepoint order (binary collation). -/
def valLe : Value → Value → Bool
  | Value.null, _ => true
  | Value.int _, Value.null => false
  | Value.int m, Value.int n => decide (m ≤ n)
  | Value.int _, Value.str _ => true
  | Value.str _, Value.null => false
  | Value.str _, Value.int _ => false
  | Value.str a, Value.str b => decide (a ≤ b)

/-- SQLite `MAX` over a column: NULLs are ignored, the greatest remaining
value under `valLe` is returned, `none` when no non-NULL value exists. -/
def sqlMax : List Value → Option Value
  | [] => none
  | v :: vs =>
    match sqlMax vs with
    | none => if v == Value.null then none else some v
    | some m => if v == Value.null then some m
                else if valLe v m then some m else some v

/-- Truth value of pairwise distinctness: the check SQLite's UNIQUE index
performs over the non-NULL `id` values, and the duplicate-column-name
check `CREATE TABLE` performs over the column names. -/
def pairwiseDistinct {α : Type} [BEq α] : List α → Bool
  | [] => true
  | v :: vs => !(vs.contains v) && pairwiseDistinct vs

/-- The non-NULL `id` values of a list of rows (NULLs are exempt from the
UNIQUE constraint). -/
def nonNullIds (rows : List Row) : List Value :=
  (rows.map (fun r => r.getCol "id")).filter (fun v => !(v == Value.null))

/-- One row of the `operations` audit table. -/
structure OpEntry where
  id : Nat
  action : String
  target_table : Option String
  target_id : Option Int
  timestamp_local : String
  timestamp_utc : String
  metadata : Option String
deriving DecidableEq, Repr

/-- The data table: its column schema, its rows in rowid order, and
whether the `CREATE UNIQUE INDEX` on `id` succeeded (`app.py` swallows a
failure of that statement). -/
structure Table where
  cols : List String
  rows : List Row
  uniqueIdIdx : Bool
deriving DecidableEq, Repr

/-- The SQLite database file: the data table (`none` when it has never
been created) and the append-only operations log. -/
structure Store where
  data : Option Table
  ops : List OpEntry
deriving DecidableEq, Repr

def DATA_TABLE : String := "polaris_products"

/-- Python `str` of a value, as applied to the `Title` field. -/
def pyStr : Value → String
  | Value.str s => s
  | Value.int n => toString n
  | Value.null => "None"

/-- Python `repr` of a value as it appears inside `str(dict)` (escaping of
special characters inside strings is not modelled). -/
def pyRepr : Value → String
  | Value.str s => "'" ++ s ++ "'"
  | Value.int n => toString n
  | Value.null => "None"

/-- Python `str` of a dict, used for the UPDATE metadata snapshot. -/
def pyStrDict (d : Dict) : String :=
  "\x7b" ++ String.intercalate ", "
    (d.map (fun p => "'" ++ p.1 ++ "': " ++ pyRepr p.2)) ++ "\x7d"

/-- Model of `str(product_dict.get("Title", ""))`: the CREATE metadata snapshot. -/
def createMeta (d : Dict) : String :=
  match lookupField d "Title" with
  | some v => pyStr v
  | none => ""

/-- Model of `log_operation`: append one row to the `operations` table.  The two
timestamps the Python code reads from the clock are explicit inputs. -/
def log_operation (s : Store) (action : String) (target_table : Option String)
    (target_id : Option Int) (metadata : Option String)
    (tsLocal tsUtc : String) : Store :=
  { s with ops := s.ops ++
      [{ id := s.ops.length + 1, action := action, target_table := target_table,
         target_id := target_id, timestamp_local := tsLocal,
         timestamp_utc := tsUtc, metadata := metadata }] }

/-- A parsed CSV source: the header line and the data rows' cells. -/
structure CSV where
  header : List String
  rows : List (List Value)

/-- The rows `pandas` builds for the data table: a synthetic `id` column
holding `i, i+1, ...` prepended to the header/cell zip. -/
def csvRows (header : List String) : Nat → List (List Value) → List Row
  | _, [] => []
  | i, cells :: rest =>
      (("id", Value.int (i : Nat)) :: header.zip cells) :: csvRows header (i + 1) rest

/-- Python `str.strip()` as applied to the CSV column names: drop
leading and trailing whitespace characters. -/
def pyStrip (s : String) : String :=
  ⟨((s.data.dropWhile Char.isWhitespace).reverse.dropWhile Char.isWhitespace).reverse⟩

/-- The data table `pandas.DataFrame.to_sql(..., if_exists="replace")`
produces for a CSV: stripped column names behind a synthetic `id` column
numbered from 1 in source-row order; the unique index on `id` exists
exactly when its creation succeeds (duplicate ids make it fail, and the
failure is swallowed by the `try`/`except`). -/
def loadedTable (csv : CSV) : Table :=
  { cols := "id" :: csv.header.map pyStrip,
    rows := csvRows (csv.header.map pyStrip) 1 csv.rows,
    uniqueIdIdx := pairwiseDistinct (nonNullIds
      (csvRows (csv.header.map pyStrip) 1 csv.rows)) }

/-- Model of `load_csv_to_db`: strip the column names, prepend an `id` column
numbered from 1 in source order, replace the data table, try to create the
unique index on `id`, ensure the ops table exists (which never appends log
rows), return the row count.  Two raise paths are modelled by `none`:
`pandas` raises when the stripped header already contains a column `id`
(`df.insert` refuses a duplicate), and `df.to_sql` raises
`sqlite3.OperationalError: duplicate column name` when distinct header
names collide after the strip. -/
def load_csv_to_db (s : Store) (csv : CSV) : Option (Store × Nat) :=
  if (csv.header.map pyStrip).contains "id"
      || !(pairwiseDistinct (csv.header.map pyStrip)) then none
  else some ({ s with data := some (loadedTable csv) }, csv.rows.length)

/-- Model of `get_table_data`: an empty result when the table does not exist,
otherwise `SELECT * FROM t [WHERE ...] ORDER BY id LIMIT limit`.  The
WHERE clause is modelled by the row predicate it denotes; `ORDER BY id`
raises when the table has no `id` column (`none`). -/
def get_table_data (s : Store) (limit : Nat) (filt : Option (Row → Bool)) :
    Option (List Row) :=
  match s.data with
  | none => some []
  | some t =>
    if t.cols.contains "id" then
      let kept := match filt with
        | some f => t.rows.filter f
        | none => t.rows
      some ((kept.mergeSort (fun a b => valLe (a.getCol "id") (b.getCol "id"))).take limit)
    else none

/-- Result of `add_product`: the store after the call, the returned id,
and the caller's dict, which the Python code mutated in place. -/
structure AddResult where
  store : Store
  newId : Int
  callerDict : Dict
deriving DecidableEq, Repr

/-- Model of `next_id = 1 if r is None or r[0] is None else r[0] + 1` applied to
the `SELECT MAX(id)` result: `none` models the Python `TypeError` raised
by `r[0] + 1` when the maximum is a TEXT value. -/
def next_id_from : Option Value → Option Int
  | some (Value.str _) => none
  | some (Value.int m) => some (m + 1)
  | _ => some 1

/-- The data-mutation phase of `add_product`, up to and including the
`conn.commit()` that follows the INSERT: compute `next_id` from
`SELECT MAX(id)`, set `product_dict['id']`, insert the row.  The audit
write has not happened yet.  `none` models a raised exception (missing
table, TEXT maximum, unknown column, UNIQUE violation). -/
def add_product_mutate (s : Store) (product_dict : Dict) : Option AddResult :=
  match s.data with
  | none => none
  | some t =>
    match next_id_from (sqlMax (t.rows.map (fun r => r.getCol "id"))) with
    | none => none
    | some next_id =>
      if (dictSet product_dict "id" (Value.int next_id)).all
          (fun p => t.cols.contains p.1) then
        if t.uniqueIdIdx &&
            (t.rows.map (fun r => r.getCol "id")).contains (Value.int next_id) then
          none
        else
          some { store := { s with data :=
                   (some { t with rows :=
                     t.rows ++ [dictSet product_dict "id" (Value.int next_id)] }) },
                 newId := next_id,
                 callerDict := dictSet product_dict "id" (Value.int next_id) }
      else none

/-- Model of `add_product`: the data mutation followed by the CREATE audit write,
whose metadata is `str(product_dict.get("Title", ""))`. -/
def add_product (s : Store) (product_dict : Dict) (tsLocal tsUtc : String) :
    Option AddResult :=
  (add_product_mutate s product_dict).map (fun m =>
    { m with store := (log_operation m.store "CREATE" (some DATA_TABLE)
        (some m.newId) (some (createMeta m.callerDict)) tsLocal tsUtc) })

/-- Effect of `UPDATE ... SET ... WHERE id = pid` on one matching
row: every column named in `update_fields` takes its new value, every
other column keeps its old value. -/
def applyUpdate (r : Row) (update_fields : Dict) : Row :=
  r.map (fun p =>
    match lookupField update_fields p.1 with
    | some v => (p.1, v)
    | none => p)
  ++ update_fields.filter (fun q => !(r.any (fun p => p.1 == q.1)))

/-- The rows of the data table after
`UPDATE ... SET ... WHERE id = product_id`: every row whose `id` value
equals `product_id` is rewritten, every other row is untouched. -/
def updatedRows (rows : List Row) (product_id : Int) (update_fields : Dict) :
    List Row :=
  rows.map (fun r =>
    if r.getCol "id" == Value.int product_id then applyUpdate r update_fields
    else r)

/-- The data-mutation phase of `update_product`, up to and including its
`conn.commit()`: the UPDATE statement and its commit, before the audit
write.  `none` models a raised exception: missing table, an empty field
map (the `", ".join` over no keys yields `UPDATE ... SET  WHERE id = ?`,
a SQLite syntax error), unknown column in SET, or a UNIQUE-index
violation when SET touches `id`. -/
def update_product_mutate (s : Store) (product_id : Int)
    (update_fields : Dict) : Option Store :=
  match s.data with
  | none => none
  | some t =>
    if update_fields.isEmpty then none
    else if update_fields.all (fun p => t.cols.contains p.1) then
      if update_fields.any (fun p => p.1 == "id") && t.uniqueIdIdx &&
          !(pairwiseDistinct (nonNullIds (updatedRows t.rows product_id update_fields))) then
        none
      else
        some { s with data :=
          (some { t with rows := updatedRows t.rows product_id update_fields }) }
    else none

/-- Model of `update_product`: the data mutation followed by the UPDATE audit
write (metadata `str(update_fields)`); returns `True` unconditionally,
also when no row matched. -/
def update_product (s : Store) (product_id : Int) (update_fields : Dict)
    (tsLocal tsUtc : String) : Option (Store × Bool) :=
  (update_product_mutate s product_id update_fields).map (fun s1 =>
    (log_operation s1 "UPDATE" (some DATA_TABLE) (some product_id)
      (some (pyStrDict update_fields)) tsLocal tsUtc, true))

/-- The data-mutation phase of `delete_product`, up to and including its
`conn.commit()`: `DELETE FROM ... WHERE id = pid` keeps exactly the rows
whose `id` value does not equal `product_id`.  `none` models the missing
table. -/
def delete_product_mutate (s : Store) (product_id : Int) : Option Store :=
  match s.data with
  | none => none
  | some t =>
    some { s with data := (some
      { t with rows := t.rows.filter (fun r => !(r.getCol "id" == Value.int product_id)) }) }

/-- Model of `delete_product`: the data mutation followed by the DELETE audit
write (no metadata); returns `True` unconditionally. -/
def delete_product (s : Store) (product_id : Int) (tsLocal tsUtc : String) :
    Option (Store × Bool) :=
  (delete_product_mutate s product_id).map (fun s1 =>
    (log_operation s1 "DELETE" (some DATA_TABLE) (some product_id) none tsLocal tsUtc, true))

/-! ### Concrete fixtures used by witnesses and counterexamples -/

/-- A concrete data row with id 5. -/
def rowW : Row := [("id", Value.int 5), ("Title", Value.str "A")]

/-- A one-row data table with max id 5. -/
def tW : Table :=
  { cols := ["id", "Title"], rows := [rowW], uniqueIdIdx := true }

/-- A store holding `tW` and an empty log. -/
def sW : Store := { data := some tW, ops := [] }

/-- An existing but empty data table. -/
def tEmpty : Table := { cols := ["id", "Title"], rows := [], uniqueIdIdx := true }

/-- A store with an existing but empty data table. -/
def sEmpty : Store := { data := some tEmpty, ops := [] }

/-- A store whose data table has never been created. -/
def sNone : Store := { data := none, ops := [] }

/-- A two-data-row CSV whose header needs trimming. -/
def csvW : CSV :=
  { header := [" Title"], rows := [[Value.str "A"], [Value.str "B"]] }

/-- A caller dict that already carries an `id` key. -/
def prodId99 : Dict := [("id", Value.int 99), ("Title", Value.str "A")]

/-- A fresh product dict for create calls. -/
def prodB : Dict := [("Title", Value.str "B")]

/-- Field map for update calls. -/
def updF : Dict := [("Title", Value.str "Z")]

/-- Concrete result of `add_product sW prodB`. -/
def resAdd : AddResult :=
  (add_product sW prodB "L" "U").getD { store := sW, newId := 0, callerDict := [] }

/-- Concrete result of `update_product sW 5 updF`. -/
def resUpd : Store × Bool :=
  (update_product sW 5 updF "L" "U").getD (sW, false)

/-- Concrete result of `delete_product sW 5`. -/
def resDel : Store × Bool :=
  (delete_product sW 5 "L" "U").getD (sW, false)

/-! ### Helper lemmas -/

theorem lookupField_nil (k : String) : lookupField [] k = none := rfl

theorem lookupField_cons (k' : String) (v : Value) (d : Dict) (k : String) :
    lookupField ((k', v) :: d) k = if k' == k then some v else lookupField d k := by
  by_cases h : k' == k <;> simp [lookupField, List.find?_cons, h]

theorem lookupField_eq_none_iff (d : Dict) (k : String) :
    lookupField d k = none ↔ k ∉ d.map Prod.fst := by
  induction d with
  | nil => simp [lookupField_nil]
  | cons p d ih =>
    obtain ⟨k', v⟩ := p
    by_cases h : k' = k
    · subst h; simp [lookupField_cons]
    · simp [lookupField_cons, h, ih, Ne.symm h]

theorem getCol_cons_self (k : String) (v : Value) (d : Dict) :
    Row.getCol ((k, v) :: d) k = v := by
  simp [Row.getCol, lookupField_cons]

theorem log_operation_data (s : Store) (a : String) (tt : Option String)
    (ti : Option Int) (md : Option String) (l u : String) :
    (log_operation s a tt ti md l u).data = s.data := rfl

theorem log_operation_ops (s : Store) (a : String) (tt : Option String)
    (ti : Option Int) (md : Option String) (l u : String) :
    (log_operation s a tt ti md l u).ops =
      s.ops ++ [{ id := s.ops.length + 1, action := a, target_table := tt,
                  target_id := ti, timestamp_local := l, timestamp_utc := u,
                  metadata := md }] := rfl

/-- Specification of the data phase of `add_product` on a successful run:
the log is untouched, the schema is kept, the new row (the caller's dict
with `id` set to the returned id) is appended at the end. -/
theorem add_product_mutate_spec (s : Store) (product_dict : Dict) (m : AddResult)
    (h : add_product_mutate s product_dict = some m) :
    m.store.ops = s.ops ∧
    m.callerDict = dictSet product_dict "id" (Value.int m.newId) ∧
    ∃ t, s.data = some t ∧
      m.store.data = some { t with rows := t.rows ++ [m.callerDict] } := by
  unfold add_product_mutate at h
  split at h
  · exact absurd h (by simp)
  next t ht =>
    split at h
    · exact absurd h (by simp)
    next nid _ =>
      split at h
      · split at h
        · exact absurd h (by simp)
        · obtain rfl := Option.some.inj h
          exact ⟨rfl, rfl, t, ht, rfl⟩
      · exact absurd h (by simp)

/-- Specification of the data phase of `update_product` on a successful
run: the log is untouched and each row is rewritten by `applyUpdate`
exactly when its `id` matches. -/
theorem update_product_mutate_spec (s : Store) (product_id : Int)
    (update_fields : Dict) (s1 : Store)
    (h : update_product_mutate s product_id update_fields = some s1) :
    s1.ops = s.ops ∧
    ∃ t, s.data = some t ∧
      s1.data = some { t with rows := updatedRows t.rows product_id update_fields } := by
  unfold update_product_mutate at h
  split at h
  · exact absurd h (by simp)
  next t ht =>
    split at h
    · exact absurd h (by simp)
    · split at h
      · split at h
        · exact absurd h (by simp)
        · obtain rfl := Option.some.inj h
          exact ⟨rfl, t, ht, rfl⟩
      · exact absurd h (by simp)

/-- Specification of the data phase of `delete_product` on a successful
run: the log is untouched and exactly the rows whose `id` equals the
argument are dropped. -/
theorem delete_product_mutate_spec (s : Store) (product_id : Int) (s1 : Store)
    (h : delete_product_mutate s product_id = some s1) :
    s1.ops = s.ops ∧
    ∃ t, s.data = some t ∧
      s1.data = some { t with rows := t.rows.filter (fun r =>
        !(r.getCol "id" == Value.int product_id)) } := by
  unfold delete_product_mutate at h
  split at h
  · exact absurd h (by simp)
  next t ht =>
    obtain rfl := Option.some.inj h
    exact ⟨rfl, t, ht, rfl⟩

theorem csvRows_length (header : List String) (i : Nat) (rs : List (List Value)) :
    (csvRows header i rs).length = rs.length := by
  induction rs generalizing i with
  | nil => simp [csvRows]
  | cons c rest ih => simp [csvRows, ih]

theorem csvRows_map_id (header : List String) (i : Nat) (rs : List (List Value)) :
    (csvRows header i rs).map (fun r => r.getCol "id") =
      (List.range rs.length).map (fun k => Value.int ((i + k : Nat))) := by
  induction rs generalizing i with
  | nil => simp [csvRows]
  | cons c rest ih =>
    rw [csvRows, List.map_cons, getCol_cons_self, ih (i + 1), List.length_cons,
      List.range_succ_eq_map, List.map_cons, List.map_map]
    refine congrArg₂ List.cons (by simp) (List.map_congr_left ?_)
    intro k _
    simp only [Function.comp_apply]
    congr 1
    push_cast
    ring

theorem valLe_refl (a : Value) : valLe a a = true := by
  cases a <;> simp [valLe]

theorem valLe_trans (a b c : Value) (h1 : valLe a b = true) (h2 : valLe b c = true) :
    valLe a c = true := by
  cases a <;> cases b <;> cases c <;> simp_all [valLe]
  · omega
  · exact le_trans h1 h2

theorem valLe_total (a b : Value) : (valLe a b || valLe b a) = true := by
  cases a <;> cases b <;> simp [valLe]
  · omega
  · exact le_total _ _

theorem sqlMax_eq_none (vs : List Value) :
    sqlMax vs = none → ∀ x ∈ vs, x = Value.null := by
  induction vs with
  | nil => simp
  | cons v vs ih =>
    intro h x hx
    rw [sqlMax] at h
    split at h
    next hs =>
      split at h
      next hv =>
        rcases List.mem_cons.mp hx with rfl | hx'
        · exact eq_of_beq hv
        · exact ih hs x hx'
      next hv => exact absurd h (by simp)
    next m' hs =>
      split at h
      next hv => exact absurd h (by simp)
      next hv => split at h <;> exact absurd h (by simp)

/-- The SQL `MAX` really is an upper bound for every non-NULL value. -/
theorem sqlMax_upper (vs : List Value) :
    ∀ m, sqlMax vs = some m → ∀ x ∈ vs, x = Value.null ∨ valLe x m = true := by
  induction vs with
  | nil => intro m h; simp [sqlMax] at h
  | cons v vs ih =>
    intro m h x hx
    rw [sqlMax] at h
    split at h
    next hs =>
      split at h
      next hv => exact absurd h (by simp)
      next hv =>
        obtain rfl := Option.some.inj h
        rcases List.mem_cons.mp hx with rfl | hx'
        · exact Or.inr (valLe_refl x)
        · exact Or.inl (sqlMax_eq_none vs hs x hx')
    next m' hs =>
      split at h
      next hv =>
        obtain rfl := Option.some.inj h
        rcases List.mem_cons.mp hx with rfl | hx'
        · exact Or.inl (eq_of_beq hv)
        · exact ih m' hs x hx'
      next hv =>
        split at h
        next hle =>
          obtain rfl := Option.some.inj h
          rcases List.mem_cons.mp hx with rfl | hx'
          · exact Or.inr hle
          · exact ih m' hs x hx'
        next hle =>
          obtain rfl := Option.some.inj h
          rcases List.mem_cons.mp hx with rfl | hx'
          · exact Or.inr (valLe_refl x)
          · rcases ih m' hs x hx' with hnull | hxle
            · exact Or.inl hnull
            · have htot := valLe_total v m'
              rw [Bool.or_eq_true] at htot
              have hm'v : valLe m' v = true := by
                rcases htot with h' | h'
                · exact absurd h' hle
                · exact h'
              exact Or.inr (valLe_trans x m' v hxle hm'v)

theorem lookup_map_set_self (d : Dict) (k : String) (v : Value)
    (h : d.any (fun p => p.1 == k) = true) :
    lookupField (d.map (fun p => if p.1 == k then (k, v) else p)) k = some v := by
  induction d with
  | nil => simp at h
  | cons p d ih =>
    by_cases hp : p.1 == k
    · rw [List.map_cons, if_pos hp, lookupField_cons]
      simp
    · rw [List.any_cons, Bool.or_eq_true] at h
      rcases h with h | h
      · exact absurd h hp
      · rw [List.map_cons, if_neg hp, lookupField_cons, if_neg hp]
        exact ih h

theorem lookup_map_set_ne (d : Dict) (k : String) (v : Value) (k' : String)
    (hk : k' ≠ k) :
    lookupField (d.map (fun p => if p.1 == k then (k, v) else p)) k' =
      lookupField d k' := by
  induction d with
  | nil => rfl
  | cons p d ih =>
    by_cases hp : p.1 == k
    · have hp' : p.1 = k := eq_of_beq hp
      rw [List.map_cons, if_pos hp, lookupField_cons, lookupField_cons]
      have h1 : (k == k') = false := by
        simp [Ne.symm hk]
      have h2 : (p.1 == k') = false := by
        simp [hp', Ne.symm hk]
      rw [h1, h2]
      simp only [Bool.false_eq_true, if_false]
      exact ih
    · rw [List.map_cons, if_neg hp, lookupField_cons, lookupField_cons]
      by_cases hp' : p.1 == k'
      · rw [if_pos hp', if_pos hp']
      · rw [if_neg hp', if_neg hp']
        exact ih

theorem lookupField_dictSet_self (d : Dict) (k : String) (v : Value) :
    lookupField (dictSet d k v) k = some v := by
  unfold dictSet
  by_cases h : d.any (fun p => p.1 == k)
  · rw [if_pos h]
    exact lookup_map_set_self d k v h
  · rw [if_neg h]
    have hfind : d.find? (fun p => p.1 == k) = none := by
      rw [List.find?_eq_none]
      intro p hp hcontra
      exact h (List.any_eq_true.mpr ⟨p, hp, hcontra⟩)
    rw [lookupField, List.find?_append, hfind]
    simp [List.find?]

theorem lookupField_dictSet_ne (d : Dict) (k : String) (v : Value) (k' : String)
    (hk : k' ≠ k) :
    lookupField (dictSet d k v) k' = lookupField d k' := by
  unfold dictSet
  by_cases h : d.any (fun p => p.1 == k)
  · rw [if_pos h]
    exact lookup_map_set_ne d k v k' hk
  · rw [if_neg h]
    rw [lookupField, List.find?_append]
    have h2 : List.find? (fun p => p.1 == k') [(k, v)] = none := by
      have hkk : (k == k') = false := by
        simp [Ne.symm hk]
      simp [List.find?, hkk]
    rw [h2, Option.or_none]
    rfl

theorem getCol_dictSet_self (d : Dict) (k : String) (v : Value) :
    Row.getCol (dictSet d k v) k = v := by
  simp [Row.getCol, lookupField_dictSet_self]

theorem dictSet_key_cases (d : Dict) (k : String) (v : Value) (p : String × Value)
    (hp : p ∈ dictSet d k v) : p.1 = k ∨ p.1 ∈ d.map Prod.fst := by
  unfold dictSet at hp
  by_cases h : d.any (fun p => p.1 == k)
  · rw [if_pos h] at hp
    obtain ⟨q, hq, hpq⟩ := List.mem_map.mp hp
    by_cases hqk : q.1 == k
    · rw [if_pos hqk] at hpq
      exact Or.inl (by rw [← hpq])
    · rw [if_neg hqk] at hpq
      exact Or.inr (hpq ▸ List.mem_map_of_mem Prod.fst hq)
  · rw [if_neg h] at hp
    rcases List.mem_append.mp hp with hp' | hp'
    · exact Or.inr (List.mem_map_of_mem Prod.fst hp')
    · rw [List.mem_singleton] at hp'
      exact Or.inl (by rw [hp'])

theorem dictSet_all_cols (d : Dict) (k : String) (v : Value) (cols : List String)
    (hd : ∀ x ∈ d.map Prod.fst, x ∈ cols) (hk : k ∈ cols) :
    (dictSet d k v).all (fun p => cols.contains p.1) = true := by
  rw [List.all_eq_true]
  intro p hp
  rcases dictSet_key_cases d k v p hp with h | h
  · simp [List.contains, List.elem_eq_mem, h, hk]
  · simp [List.contains, List.elem_eq_mem, hd p.1 h]

theorem find?_filter_of_key (l : Dict) (pred : String × Value → Bool) (c : String)
    (h : ∀ q ∈ l, q.1 = c → pred q = true) :
    (l.filter pred).find? (fun q => q.1 == c) = l.find? (fun q => q.1 == c) := by
  induction l with
  | nil => rfl
  | cons q l ih =>
    have hrest : ∀ q' ∈ l, q'.1 = c → pred q' = true :=
      fun q' hq' => h q' (List.mem_cons_of_mem q hq')
    by_cases hq : (q.1 == c) = true
    · have hpred : pred q = true := h q (List.mem_cons_self q l) (eq_of_beq hq)
      rw [List.filter_cons_of_pos hpred, List.find?_cons_of_pos l hq,
        List.find?_cons_of_pos (l.filter pred) hq]
    · by_cases hpred : pred q = true
      · rw [List.filter_cons_of_pos hpred, List.find?_cons_of_neg (l.filter pred) hq,
          List.find?_cons_of_neg l hq]
        exact ih hrest
      · rw [List.filter_cons_of_neg hpred, List.find?_cons_of_neg l hq]
        exact ih hrest

/-- The single column-level fact about `UPDATE ... SET`: after
`applyUpdate`, a column named in the SET map reads its new value and
every other column reads its old value. -/
theorem lookupField_applyUpdate (r : Row) (update_fields : Dict) (c : String) :
    lookupField (applyUpdate r update_fields) c =
      match lookupField update_fields c with
      | some v => some v
      | none => lookupField r c := by
  have hg : ((fun p : String × Value => p.1 == c) ∘ (fun p : String × Value =>
      match lookupField update_fields p.1 with
      | some v => (p.1, v)
      | none => p)) = (fun p : String × Value => p.1 == c) := by
    funext p
    cases hp : lookupField update_fields p.1 <;> simp [Function.comp, hp]
  rw [applyUpdate, lookupField, List.find?_append, List.find?_map, hg]
  cases hrc : r.find? (fun p => p.1 == c) with
  | some p =>
    have hfp : (p.1 == c) = true :=
      @List.find?_some (String × Value) (fun q => q.1 == c) p r hrc
    have hp1 : p.1 = c := eq_of_beq hfp
    have hr : lookupField r c = some p.2 := by
      rw [lookupField, hrc]
    rw [Option.map_some', Option.or_some]
    cases hf : lookupField update_fields c with
    | some v => simp [hp1, hf]
    | none => simp [hp1, hf, hr]
  | none =>
    have hr : lookupField r c = none := by
      rw [lookupField, hrc]
    have hrany : ∀ q ∈ update_fields, q.1 = c →
        (!(r.any (fun p => p.1 == q.1))) = true := by
      intro q _ hqc
      rw [List.find?_eq_none] at hrc
      simp only [Bool.not_eq_true']
      rw [List.any_eq_false]
      intro p hp
      rw [hqc]
      exact hrc p hp
    rw [Option.map_none', Option.none_or,
      find?_filter_of_key update_fields _ c hrany]
    cases hf : lookupField update_fields c with
    | some v =>
      rw [lookupField] at hf
      cases hfind : update_fields.find? (fun p => p.1 == c) with
      | some q => rw [hfind] at hf; obtain rfl := Option.some.inj hf; simp [hfind]
      | none => rw [hfind] at hf; exact absurd hf (by simp)
    | none =>
      rw [lookupField] at hf
      cases hfind : update_fields.find? (fun p => p.1 == c) with
      | some q => rw [hfind] at hf; exact absurd hf (by simp)
      | none => simp [hfind, hr]

theorem getCol_applyUpdate_of_none (r : Row) (update_fields : Dict) (c : String)
    (h : lookupField update_fields c = none) :
    Row.getCol (applyUpdate r update_fields) c = r.getCol c := by
  rw [Row.getCol, lookupField_applyUpdate, h, Row.getCol]

theorem getCol_applyUpdate_of_some (r : Row) (update_fields : Dict) (c : String)
    (v : Value) (h : lookupField update_fields c = some v) :
    Row.getCol (applyUpdate r update_fields) c = v := by
  rw [Row.getCol, lookupField_applyUpdate, h]
  rfl

/-! ### Claim theorems -/

/-- C10: for every filter and limit, calling the list operation
(`get_table_data`) when the data table does not exist returns an empty
result instead of raising; the operation issues only SELECT statements
and is embedded as a pure function, so the store is unchanged by
construction. -/
theorem list_missing_table_returns_empty (s : Store) (limit : Nat)
    (filt : Option (Row → Bool)) (h : s.data = none) :
    get_table_data s limit filt = some [] := by
  unfold get_table_data
  rw [h]

theorem list_missing_table_returns_empty_witness :
    sNone.data = none ∧ get_table_data sNone 500 none = some [] :=
  ⟨rfl, list_missing_table_returns_empty sNone 500 none rfl⟩

/-- C2: every completed `add_product`, `update_product` or
`delete_product` call appends exactly one row to the operations log, and
that row's `target_id` is the id the call targeted (the new id for
create, the id argument for update and delete). -/
theorem mutating_calls_append_exactly_one_log_entry (s : Store)
    (product_dict update_fields : Dict) (product_id : Int)
    (tsLocal tsUtc : String) :
    (∀ res, add_product s product_dict tsLocal tsUtc = some res →
      ∃ e, res.store.ops = s.ops ++ [e] ∧ e.action = "CREATE" ∧
        e.target_id = some res.newId)
    ∧ (∀ s' b, update_product s product_id update_fields tsLocal tsUtc = some (s', b) →
      ∃ e, s'.ops = s.ops ++ [e] ∧ e.action = "UPDATE" ∧
        e.target_id = some product_id)
    ∧ (∀ s' b, delete_product s product_id tsLocal tsUtc = some (s', b) →
      ∃ e, s'.ops = s.ops ++ [e] ∧ e.action = "DELETE" ∧
        e.target_id = some product_id) := by
  refine ⟨?_, ?_, ?_⟩
  · intro res h
    obtain ⟨m, hm, rfl⟩ := Option.map_eq_some'.mp h
    obtain ⟨hops, -, -⟩ := add_product_mutate_spec s product_dict m hm
    refine ⟨{ id := m.store.ops.length + 1, action := "CREATE",
              target_table := some DATA_TABLE, target_id := some m.newId,
              timestamp_local := tsLocal, timestamp_utc := tsUtc,
              metadata := some (createMeta m.callerDict) }, ?_, rfl, rfl⟩
    simp [log_operation, hops]
  · intro s' b h
    obtain ⟨s1, hs1, heq⟩ := Option.map_eq_some'.mp h
    rw [Prod.mk.injEq] at heq
    obtain ⟨rfl, rfl⟩ := heq
    obtain ⟨hops, -⟩ := update_product_mutate_spec s product_id update_fields s1 hs1
    refine ⟨{ id := s1.ops.length + 1, action := "UPDATE",
              target_table := some DATA_TABLE, target_id := some product_id,
              timestamp_local := tsLocal, timestamp_utc := tsUtc,
              metadata := some (pyStrDict update_fields) }, ?_, rfl, rfl⟩
    simp [log_operation, hops]
  · intro s' b h
    obtain ⟨s1, hs1, heq⟩ := Option.map_eq_some'.mp h
    rw [Prod.mk.injEq] at heq
    obtain ⟨rfl, rfl⟩ := heq
    obtain ⟨hops, -⟩ := delete_product_mutate_spec s product_id s1 hs1
    refine ⟨{ id := s1.ops.length + 1, action := "DELETE",
              target_table := some DATA_TABLE, target_id := some product_id,
              timestamp_local := tsLocal, timestamp_utc := tsUtc,
              metadata := none }, ?_, rfl, rfl⟩
    simp [log_operation, hops]

theorem mutating_calls_append_exactly_one_log_entry_witness :
    (∃ e, resAdd.store.ops = sW.ops ++ [e] ∧ e.action = "CREATE" ∧
      e.target_id = some resAdd.newId)
    ∧ (∃ e, resUpd.1.ops = sW.ops ++ [e] ∧ e.action = "UPDATE" ∧
      e.target_id = some 5)
    ∧ (∃ e, resDel.1.ops = sW.ops ++ [e] ∧ e.action = "DELETE" ∧
      e.target_id = some 5) := by
  obtain ⟨h1, h2, h3⟩ :=
    mutating_calls_append_exactly_one_log_entry sW prodB updF 5 "L" "U"
  exact ⟨h1 resAdd (by decide), h2 resUpd.1 resUpd.2 (by decide),
         h3 resDel.1 resDel.2 (by decide)⟩

/-- C8: in every completed create/update/delete call there is a committed
intermediate state: the data mutation is committed before the audit write
runs (`conn.commit()` precedes `log_operation` in the source), so if the
audit write fails at that point the store holds the mutated data table
(the final data is exactly the intermediate data) while the log still has
no new entry; the audit write itself only appends one log row and cannot
roll the data mutation back. -/
theorem audit_write_follows_committed_mutation (s : Store)
    (product_dict update_fields : Dict) (product_id : Int)
    (tsLocal tsUtc : String) :
    (∀ res, add_product s product_dict tsLocal tsUtc = some res →
      ∃ m, add_product_mutate s product_dict = some m ∧
        res.store.data = m.store.data ∧ m.store.ops = s.ops ∧
        ∃ e, res.store.ops = m.store.ops ++ [e])
    ∧ (∀ s' b, update_product s product_id update_fields tsLocal tsUtc = some (s', b) →
      ∃ s1, update_product_mutate s product_id update_fields = some s1 ∧
        s'.data = s1.data ∧ s1.ops = s.ops ∧ ∃ e, s'.ops = s1.ops ++ [e])
    ∧ (∀ s' b, delete_product s product_id tsLocal tsUtc = some (s', b) →
      ∃ s1, delete_product_mutate s product_id = some s1 ∧
        s'.data = s1.data ∧ s1.ops = s.ops ∧ ∃ e, s'.ops = s1.ops ++ [e]) := by
  refine ⟨?_, ?_, ?_⟩
  · intro res h
    obtain ⟨m, hm, rfl⟩ := Option.map_eq_some'.mp h
    obtain ⟨hops, -, -⟩ := add_product_mutate_spec s product_dict m hm
    exact ⟨m, hm, rfl, hops, _, rfl⟩
  · intro s' b h
    obtain ⟨s1, hs1, heq⟩ := Option.map_eq_some'.mp h
    rw [Prod.mk.injEq] at heq
    obtain ⟨rfl, rfl⟩ := heq
    obtain ⟨hops, -⟩ := update_product_mutate_spec s product_id update_fields s1 hs1
    exact ⟨s1, hs1, rfl, hops, _, rfl⟩
  · intro s' b h
    obtain ⟨s1, hs1, heq⟩ := Option.map_eq_some'.mp h
    rw [Prod.mk.injEq] at heq
    obtain ⟨rfl, rfl⟩ := heq
    obtain ⟨hops, -⟩ := delete_product_mutate_spec s product_id s1 hs1
    exact ⟨s1, hs1, rfl, hops, _, rfl⟩

theorem audit_write_follows_committed_mutation_witness :
    (∃ m, add_product_mutate sW prodB = some m ∧
      resAdd.store.data = m.store.data ∧ m.store.ops = sW.ops ∧
      ∃ e, resAdd.store.ops = m.store.ops ++ [e])
    ∧ (∃ s1, update_product_mutate sW 5 updF = some s1 ∧
      resUpd.1.data = s1.data ∧ s1.ops = sW.ops ∧ ∃ e, resUpd.1.ops = s1.ops ++ [e])
    ∧ (∃ s1, delete_product_mutate sW 5 = some s1 ∧
      resDel.1.data = s1.data ∧ s1.ops = sW.ops ∧ ∃ e, resDel.1.ops = s1.ops ++ [e]) := by
  obtain ⟨h1, h2, h3⟩ :=
    audit_write_follows_committed_mutation sW prodB updF 5 "L" "U"
  exact ⟨h1 resAdd (by decide), h2 resUpd.1 resUpd.2 (by decide),
         h3 resDel.1 resDel.2 (by decide)⟩

/-- Reduction of the data phase of `add_product` when every raised-path
condition is settled. -/
theorem add_product_mutate_eq (s : Store) (t : Table) (product_dict : Dict)
    (nid : Int) (ht : s.data = some t)
    (hnid : next_id_from (sqlMax (t.rows.map (fun r => r.getCol "id"))) = some nid)
    (hall : (dictSet product_dict "id" (Value.int nid)).all
      (fun p => t.cols.contains p.1) = true)
    (hcoll : (t.uniqueIdIdx &&
      (t.rows.map (fun r => r.getCol "id")).contains (Value.int nid)) = false) :
    add_product_mutate s product_dict = some
      { store := { s with data := (some { t with rows :=
          t.rows ++ [dictSet product_dict "id" (Value.int nid)] }) },
        newId := nid,
        callerDict := dictSet product_dict "id" (Value.int nid) } := by
  unfold add_product_mutate
  simp only [ht, hnid, hall, hcoll, Bool.false_eq_true, if_false,
    eq_self_iff_true, if_true]

/-- C1: on an existing data table, `add_product` inserts exactly one new
row at the end: when `MAX(id)` is the integer M the new row's id is M+1
and M+1 is returned; when the table is empty the new row's id is 1 and 1
is returned. -/
theorem create_returns_max_id_plus_one (s : Store) (t : Table)
    (product_dict : Dict) (tsLocal tsUtc : String) (M : Int)
    (ht : s.data = some t) (hid : "id" ∈ t.cols)
    (hk : ∀ k ∈ product_dict.map Prod.fst, k ∈ t.cols) :
    (sqlMax (t.rows.map (fun r => r.getCol "id")) = some (Value.int M) →
      ∃ res, add_product s product_dict tsLocal tsUtc = some res ∧
        res.newId = M + 1 ∧
        ∃ t' row, res.store.data = some t' ∧ t'.rows = t.rows ++ [row] ∧
          row.getCol "id" = Value.int (M + 1))
    ∧ (t.rows = [] →
      ∃ res, add_product s product_dict tsLocal tsUtc = some res ∧
        res.newId = 1 ∧
        ∃ t' row, res.store.data = some t' ∧ t'.rows = [row] ∧
          row.getCol "id" = Value.int 1) := by
  constructor
  · intro hM
    have hnid : next_id_from (sqlMax (t.rows.map (fun r => r.getCol "id"))) =
        some (M + 1) := by
      rw [hM]
      rfl
    have hall := dictSet_all_cols product_dict "id" (Value.int (M + 1)) t.cols hk hid
    have hmem : Value.int (M + 1) ∉ t.rows.map (fun r => r.getCol "id") := by
      intro hmem
      rcases sqlMax_upper (t.rows.map (fun r => r.getCol "id")) (Value.int M) hM
        (Value.int (M + 1)) hmem with hnull | hle
      · exact absurd hnull (by simp)
      · simp [valLe] at hle
    have hcont : (t.rows.map (fun r => r.getCol "id")).contains
        (Value.int (M + 1)) = false := by
      simp [List.contains, List.elem_eq_mem, hmem]
    have hcoll : (t.uniqueIdIdx && (t.rows.map (fun r => r.getCol "id")).contains
        (Value.int (M + 1))) = false := by
      rw [hcont, Bool.and_false]
    have hmut := add_product_mutate_eq s t product_dict (M + 1) ht hnid hall hcoll
    have hadd : add_product s product_dict tsLocal tsUtc = some
        { store := log_operation
            { s with data := (some { t with rows :=
                t.rows ++ [dictSet product_dict "id" (Value.int (M + 1))] }) }
            "CREATE" (some DATA_TABLE) (some (M + 1))
            (some (createMeta (dictSet product_dict "id" (Value.int (M + 1)))))
            tsLocal tsUtc,
          newId := M + 1,
          callerDict := dictSet product_dict "id" (Value.int (M + 1)) } := by
      unfold add_product
      rw [hmut]
      rfl
    exact ⟨_, hadd, rfl, _, _, rfl, rfl, getCol_dictSet_self _ _ _⟩
  · intro hrows
    have hnid : next_id_from (sqlMax (t.rows.map (fun r => r.getCol "id"))) =
        some 1 := by
      rw [hrows]
      rfl
    have hall := dictSet_all_cols product_dict "id" (Value.int 1) t.cols hk hid
    have hcoll : (t.uniqueIdIdx && (t.rows.map (fun r => r.getCol "id")).contains
        (Value.int 1)) = false := by
      rw [hrows]
      simp [List.contains]
    have hmut := add_product_mutate_eq s t product_dict 1 ht hnid hall hcoll
    have hadd : add_product s product_dict tsLocal tsUtc = some
        { store := log_operation
            { s with data := (some { t with rows :=
                t.rows ++ [dictSet product_dict "id" (Value.int 1)] }) }
            "CREATE" (some DATA_TABLE) (some 1)
            (some (createMeta (dictSet product_dict "id" (Value.int 1))))
            tsLocal tsUtc,
          newId := 1,
          callerDict := dictSet product_dict "id" (Value.int 1) } := by
      unfold add_product
      rw [hmut]
      rfl
    refine ⟨_, hadd, rfl,
      { t with rows := t.rows ++ [dictSet product_dict "id" (Value.int 1)] },
      dictSet product_dict "id" (Value.int 1), rfl, ?_,
      getCol_dictSet_self product_dict "id" (Value.int 1)⟩
    rw [hrows]
    rfl

theorem create_returns_max_id_plus_one_witness :
    (∃ res, add_product sW prodB "L" "U" = some res ∧
      res.newId = 5 + 1 ∧
      ∃ t' row, res.store.data = some t' ∧ t'.rows = tW.rows ++ [row] ∧
        row.getCol "id" = Value.int (5 + 1))
    ∧ (∃ res, add_product sEmpty prodB "L" "U" = some res ∧
      res.newId = 1 ∧
      ∃ t' row, res.store.data = some t' ∧ t'.rows = [row] ∧
        row.getCol "id" = Value.int 1) :=
  ⟨(create_returns_max_id_plus_one sW tW prodB "L" "U" 5 rfl (by decide)
      (by decide)).1 (by decide),
   (create_returns_max_id_plus_one sEmpty tEmpty prodB "L" "U" 0
      rfl (by decide) (by decide)).2 rfl⟩

/-- C9 (amended): a completed `add_product` call mutates the caller's
dict in place: afterwards it maps `"id"` to the returned new id
(overwriting any pre-existing `"id"` entry), every entry under a key
other than `"id"` is unchanged, and the CREATE log entry's metadata is
the `str` of the dict's `Title` entry (the empty string when absent),
not a snapshot of the whole dict. -/
theorem create_mutates_caller_dict (s : Store) (product_dict : Dict)
    (tsLocal tsUtc : String) (res : AddResult)
    (h : add_product s product_dict tsLocal tsUtc = some res) :
    lookupField res.callerDict "id" = some (Value.int res.newId)
    ∧ (∀ k, k ≠ "id" → lookupField res.callerDict k = lookupField product_dict k)
    ∧ ∃ e, res.store.ops = s.ops ++ [e] ∧
        (lookupField product_dict "Title" = none → e.metadata = some "")
        ∧ (∀ v, lookupField product_dict "Title" = some v →
            e.metadata = some (pyStr v)) := by
  obtain ⟨m, hm, rfl⟩ := Option.map_eq_some'.mp h
  obtain ⟨hops, hdict, -⟩ := add_product_mutate_spec s product_dict m hm
  have htitle : lookupField m.callerDict "Title" = lookupField product_dict "Title" := by
    rw [hdict]
    exact lookupField_dictSet_ne _ _ _ _ (by decide)
  refine ⟨?_, ?_, ?_⟩
  · show lookupField m.callerDict "id" = some (Value.int m.newId)
    rw [hdict]
    exact lookupField_dictSet_self _ _ _
  · intro k hk
    show lookupField m.callerDict k = lookupField product_dict k
    rw [hdict]
    exact lookupField_dictSet_ne _ _ _ _ hk
  · refine ⟨{ id := m.store.ops.length + 1, action := "CREATE",
              target_table := some DATA_TABLE, target_id := some m.newId,
              timestamp_local := tsLocal, timestamp_utc := tsUtc,
              metadata := some (createMeta m.callerDict) }, ?_, ?_, ?_⟩
    · simp [log_operation, hops]
    · intro hnone
      show some (createMeta m.callerDict) = some ""
      unfold createMeta
      rw [htitle, hnone]
    · intro v hv
      show some (createMeta m.callerDict) = some (pyStr v)
      unfold createMeta
      rw [htitle, hv]

theorem create_mutates_caller_dict_witness :
    lookupField resAdd.callerDict "id" = some (Value.int resAdd.newId)
    ∧ (∀ k, k ≠ "id" → lookupField resAdd.callerDict k = lookupField prodB k)
    ∧ ∃ e, resAdd.store.ops = sW.ops ++ [e] ∧
        (lookupField prodB "Title" = none → e.metadata = some "")
        ∧ (∀ v, lookupField prodB "Title" = some v →
            e.metadata = some (pyStr v)) :=
  create_mutates_caller_dict sW prodB "L" "U" resAdd (by decide)

/-- Concrete result of `add_product sEmpty prodId99`. -/
def c9res : AddResult :=
  (add_product sEmpty prodId99 "L" "U").getD
    { store := sEmpty, newId := 0, callerDict := [] }

/-- C9 counterexample: when the caller's dict already carries
`"id" ↦ 99`, the completed create call rebinds that original entry to the
newly assigned id 1, so not all of the caller's original entries survive
unchanged. -/
theorem create_caller_dict_counterexample :
    add_product sEmpty prodId99 "L" "U" = some c9res
    ∧ lookupField prodId99 "id" = some (Value.int 99)
    ∧ lookupField c9res.callerDict "id" = some (Value.int 1)
    ∧ ¬ lookupField c9res.callerDict "id" = some (Value.int 99) := by
  decide

/-- Reduction of the data phase of `update_product` when the SET map is
non-empty, names only schema columns and does not touch `id`. -/
theorem update_product_mutate_eq (s : Store) (t : Table) (product_id : Int)
    (update_fields : Dict) (ht : s.data = some t)
    (hemp : update_fields.isEmpty = false)
    (hall : update_fields.all (fun p => t.cols.contains p.1) = true)
    (hany : update_fields.any (fun p => p.1 == "id") = false) :
    update_product_mutate s product_id update_fields = some
      { s with data :=
        (some { t with rows := updatedRows t.rows product_id update_fields }) } := by
  unfold update_product_mutate
  simp only [ht, hemp, hall, hany, Bool.false_and, Bool.false_eq_true, if_false,
    eq_self_iff_true, if_true]

/-- C4: an `update_product` call whose SET map is non-empty (an empty
map makes the source build `UPDATE ... SET  WHERE id = ?`, a SQLite
syntax error) and names existing non-`id`
columns always completes with `True`, keeps the table the same length,
rewrites only the rows whose `id` matches — and in those rows changes
exactly the columns named in the field map (each to its supplied value)
while every other column keeps its old value — leaves every non-matching
row untouched, and leaves the whole table unchanged when no row
matches. -/
theorem update_changes_only_named_fields (s : Store) (t : Table)
    (product_id : Int) (update_fields : Dict) (tsLocal tsUtc : String)
    (ht : s.data = some t) (hne : update_fields ≠ [])
    (hk : ∀ k ∈ update_fields.map Prod.fst, k ∈ t.cols)
    (hnoid : "id" ∉ update_fields.map Prod.fst) :
    ∃ s', update_product s product_id update_fields tsLocal tsUtc = some (s', true) ∧
    ∃ t', s'.data = some t' ∧
      List.Forall₂ (fun old new =>
        (old.getCol "id" = Value.int product_id →
          (∀ c, c ∉ update_fields.map Prod.fst → new.getCol c = old.getCol c)
          ∧ (∀ c v, lookupField update_fields c = some v → new.getCol c = v))
        ∧ (¬ old.getCol "id" = Value.int product_id → new = old)) t.rows t'.rows
      ∧ ((∀ r ∈ t.rows, ¬ r.getCol "id" = Value.int product_id) →
          t'.rows = t.rows) := by
  have hall : update_fields.all (fun p => t.cols.contains p.1) = true := by
    rw [List.all_eq_true]
    intro p hp
    simp [List.contains, List.elem_eq_mem, hk p.1 (List.mem_map_of_mem Prod.fst hp)]
  have hany : update_fields.any (fun p => p.1 == "id") = false := by
    rw [List.any_eq_false]
    intro p hp hcontra
    exact hnoid (eq_of_beq hcontra ▸ List.mem_map_of_mem Prod.fst hp)
  have hemp : update_fields.isEmpty = false := by
    cases update_fields with
    | nil => exact absurd rfl hne
    | cons p l => rfl
  have hmut := update_product_mutate_eq s t product_id update_fields ht hemp hall hany
  have hupd : update_product s product_id update_fields tsLocal tsUtc = some
      (log_operation
        { s with data :=
          (some { t with rows := updatedRows t.rows product_id update_fields }) }
        "UPDATE" (some DATA_TABLE) (some product_id)
        (some (pyStrDict update_fields)) tsLocal tsUtc, true) := by
    unfold update_product
    rw [hmut]
    rfl
  refine ⟨_, hupd, { t with rows := updatedRows t.rows product_id update_fields },
    rfl, ?_, ?_⟩
  · show List.Forall₂ _ t.rows (updatedRows t.rows product_id update_fields)
    rw [updatedRows]
    rw [List.forall₂_map_right_iff]
    rw [List.forall₂_same]
    intro r hr
    constructor
    · intro hmatch
      have hif : (if r.getCol "id" == Value.int product_id
          then applyUpdate r update_fields else r) = applyUpdate r update_fields := by
        rw [if_pos]
        simp [hmatch]
      rw [hif]
      constructor
      · intro c hc
        exact getCol_applyUpdate_of_none r update_fields c
          ((lookupField_eq_none_iff update_fields c).mpr hc)
      · intro c v hv
        exact getCol_applyUpdate_of_some r update_fields c v hv
    · intro hnmatch
      rw [if_neg]
      simp [hnmatch]
  · intro hnone
    rw [updatedRows]
    conv_rhs => rw [← List.map_id t.rows]
    refine List.map_congr_left ?_
    intro r hr
    rw [if_neg (by simp [hnone r hr])]
    rfl

theorem update_changes_only_named_fields_witness :
    sW.data = some tW ∧ updF ≠ [] ∧ ("id" ∉ updF.map Prod.fst) ∧
    (∃ s', update_product sW 5 updF "L" "U" = some (s', true) ∧
    ∃ t', s'.data = some t' ∧
      List.Forall₂ (fun old new =>
        (old.getCol "id" = Value.int 5 →
          (∀ c, c ∉ updF.map Prod.fst → new.getCol c = old.getCol c)
          ∧ (∀ c v, lookupField updF c = some v → new.getCol c = v))
        ∧ (¬ old.getCol "id" = Value.int 5 → new = old)) tW.rows t'.rows
      ∧ ((∀ r ∈ tW.rows, ¬ r.getCol "id" = Value.int 5) → t'.rows = tW.rows)) :=
  ⟨rfl, by decide, by decide,
    update_changes_only_named_fields sW tW 5 updF "L" "U" rfl (by decide)
      (by decide) (by decide)⟩

/-- C5: `delete_product` on an existing data table always completes and
returns `True`; when the table is written as `u ++ r :: v` with `r` the
only row whose id matches, exactly `r` is removed and `u`, `v` are kept
unchanged; when no row matches, the table is unchanged. -/
theorem delete_removes_exactly_matching_row (s : Store) (t : Table)
    (product_id : Int) (tsLocal tsUtc : String) (ht : s.data = some t) :
    ∃ s', delete_product s product_id tsLocal tsUtc = some (s', true) ∧
    ∃ t', s'.data = some t' ∧
      t'.rows = t.rows.filter (fun r => !(r.getCol "id" == Value.int product_id)) ∧
      ((∀ r ∈ t.rows, ¬ r.getCol "id" = Value.int product_id) → t'.rows = t.rows) ∧
      (∀ u v r, t.rows = u ++ r :: v →
        r.getCol "id" = Value.int product_id →
        (∀ x ∈ u, ¬ x.getCol "id" = Value.int product_id) →
        (∀ x ∈ v, ¬ x.getCol "id" = Value.int product_id) →
        t'.rows = u ++ v) := by
  have hm : delete_product_mutate s product_id =
      some { s with data := (some { t with rows := t.rows.filter (fun r =>
        !(r.getCol "id" == Value.int product_id)) }) } := by
    unfold delete_product_mutate
    rw [ht]
  refine ⟨_, by rw [delete_product, hm, Option.map_some'], _, rfl, rfl, ?_, ?_⟩
  · intro hnone
    rw [List.filter_eq_self]
    intro r hr
    simp [hnone r hr]
  · intro u v r hsplit hrid hu hv
    rw [hsplit, List.filter_append, List.filter_cons]
    have hr : (r.getCol "id" == Value.int product_id) = true := by
      simp [hrid]
    rw [hr]
    have h1 : List.filter (fun r => !(r.getCol "id" == Value.int product_id)) u = u := by
      rw [List.filter_eq_self]; intro x hx; simp [hu x hx]
    have h2 : List.filter (fun r => !(r.getCol "id" == Value.int product_id)) v = v := by
      rw [List.filter_eq_self]; intro x hx; simp [hv x hx]
    simp [h1, h2]

theorem loadedTable_ids (csv : CSV) :
    (loadedTable csv).rows.map (fun r => r.getCol "id") =
      (List.range csv.rows.length).map (fun k => Value.int ((k + 1 : Nat))) := by
  rw [loadedTable, csvRows_map_id]
  refine List.map_congr_left ?_
  intro k _
  congr 1
  push_cast
  ring

theorem load_csv_to_db_eq (s : Store) (csv : CSV)
    (hid : "id" ∉ csv.header.map pyStrip)
    (hdup : pairwiseDistinct (csv.header.map pyStrip) = true) :
    load_csv_to_db s csv =
      some ({ s with data := some (loadedTable csv) }, csv.rows.length) := by
  have hc : (csv.header.map pyStrip).contains "id" = false := by
    simp [List.contains, List.elem_eq_mem, hid]
  unfold load_csv_to_db
  rw [hc, hdup]
  rfl

/-- C3: loading a CSV with N data rows — whose stripped header neither
contains an `id` column (which `pandas.DataFrame.insert` rejects) nor
collides after the strip (which makes `df.to_sql` raise a duplicate
column name) — replaces the data table with exactly N records whose
synthetic `id` column holds 1..N in source-row order, and returns N. -/
theorem load_csv_assigns_sequential_ids (s : Store) (csv : CSV)
    (hid : "id" ∉ csv.header.map pyStrip)
    (hdup : pairwiseDistinct (csv.header.map pyStrip) = true) :
    ∃ s', load_csv_to_db s csv = some (s', csv.rows.length) ∧
    ∃ t', s'.data = some t' ∧ t'.rows.length = csv.rows.length ∧
      t'.rows.map (fun r => r.getCol "id") =
        (List.range csv.rows.length).map (fun k => Value.int ((k + 1 : Nat))) :=
  ⟨_, load_csv_to_db_eq s csv hid hdup, _, rfl,
    csvRows_length _ _ _, loadedTable_ids csv⟩

theorem load_csv_assigns_sequential_ids_witness :
    ("id" ∉ csvW.header.map pyStrip) ∧
    pairwiseDistinct (csvW.header.map pyStrip) = true ∧
    (∃ s', load_csv_to_db sNone csvW = some (s', csvW.rows.length) ∧
    ∃ t', s'.data = some t' ∧ t'.rows.length = csvW.rows.length ∧
      t'.rows.map (fun r => r.getCol "id") =
        (List.range csvW.rows.length).map (fun k => Value.int ((k + 1 : Nat)))) :=
  ⟨by decide, by decide,
    load_csv_assigns_sequential_ids sNone csvW (by decide) (by decide)⟩

/-- C7 (amended): reloading the same CSV is idempotent on the data table
(row count and ids 1..N are reproduced), but the operations-log table is
UNCHANGED across the reload — `load_csv_to_db` only creates the log table
if absent and never appends to it — rather than strictly growing. -/
theorem reload_idempotent_log_unchanged (s : Store) (csv : CSV)
    (hid : "id" ∉ csv.header.map pyStrip)
    (hdup : pairwiseDistinct (csv.header.map pyStrip) = true) :
    ∃ s1, load_csv_to_db s csv = some (s1, csv.rows.length) ∧
    ∃ s2, load_csv_to_db s1 csv = some (s2, csv.rows.length) ∧
      s2.data = s1.data ∧ s1.ops = s.ops ∧ s2.ops = s1.ops ∧
      (∀ t1, s1.data = some t1 → t1.rows.map (fun r => r.getCol "id") =
        (List.range csv.rows.length).map (fun k => Value.int ((k + 1 : Nat)))) := by
  refine ⟨_, load_csv_to_db_eq s csv hid hdup, _,
    load_csv_to_db_eq { s with data := some (loadedTable csv) } csv hid hdup,
    rfl, rfl, rfl, ?_⟩
  intro t1 ht1
  obtain rfl := Option.some.inj ht1
  exact loadedTable_ids csv

theorem reload_idempotent_log_unchanged_witness :
    ("id" ∉ csvW.header.map pyStrip) ∧
    pairwiseDistinct (csvW.header.map pyStrip) = true ∧
    (∃ s1, load_csv_to_db sNone csvW = some (s1, csvW.rows.length) ∧
    ∃ s2, load_csv_to_db s1 csvW = some (s2, csvW.rows.length) ∧
      s2.data = s1.data ∧ s1.ops = sNone.ops ∧ s2.ops = s1.ops ∧
      (∀ t1, s1.data = some t1 → t1.rows.map (fun r => r.getCol "id") =
        (List.range csvW.rows.length).map (fun k => Value.int ((k + 1 : Nat))))) :=
  ⟨by decide, by decide,
    reload_idempotent_log_unchanged sNone csvW (by decide) (by decide)⟩

/-- C7 counterexample: loading `csvW` twice starting from the empty store
keeps the operations log at the same size after both loads, refuting the
claim that the log strictly grows across the reload. -/
theorem reload_log_growth_counterexample :
    ((load_csv_to_db sNone csvW).bind (fun p =>
      (load_csv_to_db p.1 csvW).map (fun q =>
        decide (p.1.ops.length < q.1.ops.length)))) = some false := by
  decide

/-- C6: whenever the list operation completes on an existing data table,
its result is sorted ascending by the `id` column (in SQLite's value
order), holds at most `limit` records, and with an empty filter is a
permutation of the whole table whenever the table has at most `limit`
rows. -/
theorem list_sorted_by_id_and_capped (s : Store) (t : Table) (limit : Nat)
    (filt : Option (Row → Bool)) (out : List Row)
    (ht : s.data = some t) (h : get_table_data s limit filt = some out) :
    out.Pairwise (fun a b => valLe (a.getCol "id") (b.getCol "id") = true)
    ∧ out.length ≤ limit
    ∧ (filt = none → t.rows.length ≤ limit → out.Perm t.rows) := by
  unfold get_table_data at h
  split at h
  · next heq =>
    rw [ht] at heq
    exact absurd heq (by simp)
  next t' heq =>
    rw [ht] at heq
    obtain rfl := Option.some.inj heq
    split at h
    · next hcols =>
      obtain rfl := Option.some.inj h
      have htrans : ∀ a b c : Row,
          valLe (a.getCol "id") (b.getCol "id") = true →
          valLe (b.getCol "id") (c.getCol "id") = true →
          valLe (a.getCol "id") (c.getCol "id") = true :=
        fun a b c h1 h2 => valLe_trans _ _ _ h1 h2
      have htotal : ∀ a b : Row,
          (valLe (a.getCol "id") (b.getCol "id") ||
            valLe (b.getCol "id") (a.getCol "id")) = true :=
        fun a b => valLe_total _ _
      refine ⟨?_, ?_, ?_⟩
      · exact List.Pairwise.sublist (List.take_sublist _ _)
          (List.sorted_mergeSort htrans htotal _)
      · rw [List.length_take]
        exact min_le_left _ _
      · intro hfilt hlen
        subst hfilt
        rw [List.take_of_length_le (by rw [List.length_mergeSort]; exact hlen)]
        exact List.mergeSort_perm t.rows _
    · next hcols =>
      exact absurd h (by simp)

theorem list_sorted_by_id_and_capped_witness :
    get_table_data sW 1000 none = some [rowW]
    ∧ ([rowW].Pairwise (fun a b => valLe (a.getCol "id") (b.getCol "id") = true)
      ∧ ([rowW] : List Row).length ≤ 1000
      ∧ ((none : Option (Row → Bool)) = none → tW.rows.length ≤ 1000 →
          ([rowW] : List Row).Perm tW.rows)) := by
  have h1 : List.mergeSort [rowW]
      (fun a b => valLe (Row.getCol a "id") (Row.getCol b "id")) = [rowW] :=
    List.mergeSort_singleton rowW
  have h2 : ([rowW] : List Row).take 1000 = [rowW] :=
    List.take_of_length_le (by simp)
  have hW : get_table_data sW 1000 none = some [rowW] := by
    simp [get_table_data, sW, tW, h1, h2]
  exact ⟨hW, list_sorted_by_id_and_capped sW tW 1000 none [rowW] rfl hW⟩

theorem delete_removes_exactly_matching_row_witness :
    sW.data = some tW ∧
    (∃ s', delete_product sW 5 "L" "U" = some (s', true) ∧
    ∃ t', s'.data = some t' ∧
      t'.rows = tW.rows.filter (fun r => !(r.getCol "id" == Value.int 5)) ∧
      ((∀ r ∈ tW.rows, ¬ r.getCol "id" = Value.int 5) → t'.rows = tW.rows) ∧
      (∀ u v r, tW.rows = u ++ r :: v →
        r.getCol "id" = Value.int 5 →
        (∀ x ∈ u, ¬ x.getCol "id" = Value.int 5) →
        (∀ x ∈ v, ¬ x.getCol "id" = Value.int 5) →
        t'.rows = u ++ v)) :=
  ⟨rfl, delete_removes_exactly_matching_row sW tW 5 "L" "U" rfl⟩

end Polaris
